import Mathlib

/-!
# Verification of the Cellular Automata Art Studio step engine

Shallow embedding of the simulation core of `src/main.js`
(`CellularAutomataArtStudio`).  The embedded pieces are:

* the web-worker step engine (the `self.onmessage` handler built from
  `workerCode`, lines 84–183 of `src/main.js`),
* the main-thread fallback `computeNextGeneration` (lines 356–456),
* the canvas edit handlers `handleCanvasClick` / `handleCanvasMouseDown`
  (lines 494–542), and
* the pattern stamping routine `applyPattern` (lines 744–763) together with
  the `glider` pattern literal (lines 623–627).

Modelling conventions:

* A cell's `state` field is a JavaScript number that the program only ever
  sets to a non-negative integer — except in one reachable corner where the
  source computes `Math.round(stateSum / neighbors)` with `neighbors = 0`,
  which in JavaScript produces `NaN` (and `Math.min`/`Math.max` propagate
  `NaN`).  We therefore embed the state as `Option ℕ`, with `none` playing
  the role of `NaN` and `some n` an ordinary integer.  All JS comparisons
  involving `NaN` are false, which the helpers `jsLive`/`jsVal` reproduce
  (`NaN > 0` is false, so a `NaN` cell is treated as dead everywhere).
* `age` is always assigned `0` or `age + 1` by the source, so it is a plain
  `ℕ`.
* `Math.round(stateSum / neighbors)` for `neighbors > 0` is modelled as
  exact rational round-half-up, `(2*a + b) / (2*b)` over `ℕ`.  For the
  magnitudes the program produces (at most 8 neighbors, small states) the
  double-precision quotient rounds identically, since the only quotients of
  denominator ≤ 8 lying on a rounding boundary (x.5) are exactly
  representable in binary.
* Grids are lists of rows of cells; out-of-range reads use a default dead
  cell, matching the source's assumption that the array dimensions agree
  with `gridSize` (the step loops and bounds checks all use
  `gridSize.rows/cols`).
-/

namespace GOL

/-- A grid cell, mirroring the objects created by `initializeGrid`:
`{state, age, changed}` (the unused `previousStates` field is dropped).
`state = none` models a JavaScript `NaN`. -/
structure Cell where
  state : Option ℕ
  age : ℕ
  changed : Bool
deriving DecidableEq

/-- The cell used for out-of-range reads; dimensions are assumed to match
`gridSize`, so in-range accesses never see it. -/
def defaultCell : Cell := ⟨some 0, 0, false⟩

/-- A grid: rows of cells, row-major, addressed `grid[y][x]` as in the
source. -/
abbrev Grid := List (List Cell)

/-- The `gridSize` object `{rows, cols}`. -/
structure GridSize where
  rows : ℕ
  cols : ℕ
deriving DecidableEq

/-- The `neighborhood` rule field: `'moore'` or `'von-neumann'`. -/
inductive Neighborhood where
  | moore
  | vonNeumann
deriving DecidableEq

/-- The `rules` configuration object (lines 26–36 of `src/main.js`). -/
structure Rules where
  surviveMin : ℕ
  surviveMax : ℕ
  birthMin : ℕ
  birthMax : ℕ
  states : ℕ
  neighborhood : Neighborhood
  wrapping : Bool
deriving DecidableEq

/-- The part of the `colorScheme` object consumed by the step engine
(`trailEffect`, `trailLength`). -/
structure TrailCfg where
  trailEffect : Bool
  trailLength : ℕ
deriving DecidableEq

/-- `grid[y][x]`, total via the default cell. -/
def getCell (g : Grid) (y x : ℕ) : Cell :=
  (g.getD y []).getD x defaultCell

/-- The JS test `v > 0`: false for `NaN` (`none`). -/
def jsLive (v : Option ℕ) : Bool :=
  match v with
  | some s => decide (0 < s)
  | none => false

/-- Extract the numeric value of a state known to be a number (used only
where the source has already established `v > 0`). -/
def jsVal (v : Option ℕ) : ℕ := v.getD 0

/-- Neighbor offset tables (lines 101–103 / 380–382): Moore = 8 surrounding
cells, Von Neumann = 4 orthogonal cells, in source order `(dy, dx)`. -/
def directions (n : Neighborhood) : List (ℤ × ℤ) :=
  match n with
  | .moore => [(-1,-1),(-1,0),(-1,1),(0,-1),(0,1),(1,-1),(1,0),(1,1)]
  | .vonNeumann => [(-1,0),(0,-1),(0,1),(1,0)]

/-- `(i + n) % n` as computed by the source for wrapping (with
`i = y + dy ∈ [-1, n]`, the JS remainder agrees with integer emod). -/
def wrapIdx (i : ℤ) (n : ℕ) : ℕ := ((i + n) % n).toNat

/-- The neighbor-counting loop (lines 105–121 / 384–400): returns
`(neighbors, stateSum)` — the count of neighbors with `state > 0` and the
sum of those neighbors' states, reading only the pre-step grid `g`. -/
def neighborData (nh : Neighborhood) (wrapping : Bool) (size : GridSize)
    (g : Grid) (y x : ℕ) : ℕ × ℕ :=
  (directions nh).foldl
    (fun acc d =>
      let ny : ℤ := (y : ℤ) + d.1
      let nx : ℤ := (x : ℤ) + d.2
      if wrapping then
        let c := getCell g (wrapIdx ny size.rows) (wrapIdx nx size.cols)
        if jsLive c.state then (acc.1 + 1, acc.2 + jsVal c.state) else acc
      else if ny < 0 ∨ ny ≥ (size.rows : ℤ) ∨ nx < 0 ∨ nx ≥ (size.cols : ℤ) then
        acc
      else
        let c := getCell g ny.toNat nx.toNat
        if jsLive c.state then (acc.1 + 1, acc.2 + jsVal c.state) else acc)
    (0, 0)

/-- Exact round-half-up of `a / b` for naturals (`Math.round` of the
quotient; see the header comment on float fidelity). -/
def roundDiv (a b : ℕ) : ℕ := (2 * a + b) / (2 * b)

/-- Per-cell transition exactly as in the worker's rule-application block
(lines 124–178): given the cell's pre-step value and its neighbor data,
produce the cell written into `newGrid[y][x]`.  In the birth branch with
`states > 1` and `neighbors = 0`, the source computes
`Math.round(stateSum / 0) = NaN` and `Math.max(1, Math.min(NaN, states))`
is `NaN`, modelled as `none`. -/
def stepCellWorker (rules : Rules) (cfg : TrailCfg) (cell : Cell)
    (neighbors stateSum : ℕ) : Cell :=
  if jsLive cell.state then
    let s := jsVal cell.state
    if rules.surviveMin ≤ neighbors ∧ neighbors ≤ rules.surviveMax then
      -- survival: `newState = min(state+1, states)` when `states > 1`,
      -- `cellChanged` ends true because the age always advances
      let newState := if 1 < rules.states then min (s + 1) rules.states else s
      { state := some newState, age := cell.age + 1, changed := true }
    else
      -- death
      if cfg.trailEffect then
        if cell.age + 1 > cfg.trailLength then
          { state := some 0, age := 0, changed := true }
        else
          { state := cell.state, age := cell.age + 1, changed := true }
      else
        { state := some 0, age := 0, changed := true }
  else
    if rules.birthMin ≤ neighbors ∧ neighbors ≤ rules.birthMax then
      let newState : Option ℕ :=
        if 1 < rules.states then
          if neighbors = 0 then none
          else some (max 1 (min (roundDiv stateSum neighbors) rules.states))
        else some 1
      { state := newState, age := 0, changed := true }
    else
      -- no change: `newGrid[y][x]` keeps the copied values, `changed := false`
      { state := cell.state, age := cell.age, changed := false }

/-- The worker `onmessage` step (lines 84–183): a new grid whose `(y, x)`
entry is the per-cell transition of `grid[y][x]` under the pre-step
neighbor counts, plus the `changedCells` list of `{x, y}` pushed in loop
order for every cell whose transition recorded a change. -/
def workerOnMessage (rules : Rules) (cfg : TrailCfg) (size : GridSize)
    (g : Grid) : Grid × List (ℕ × ℕ) :=
  let newCell : ℕ → ℕ → Cell := fun y x =>
    let nd := neighborData rules.neighborhood rules.wrapping size g y x
    stepCellWorker rules cfg (getCell g y x) nd.1 nd.2
  ((List.range size.rows).map fun y =>
      (List.range size.cols).map fun x => newCell y x,
   (List.range size.rows).flatMap fun y =>
      (List.range size.cols).filterMap fun x =>
        if (newCell y x).changed then some (x, y) else none)

/-- `n` applications of the worker step. -/
def stepIter (rules : Rules) (cfg : TrailCfg) (size : GridSize) :
    ℕ → Grid → Grid
  | 0, g => g
  | n + 1, g => (workerOnMessage rules cfg size (stepIter rules cfg size n g)).1

/-- The `patterns.glider` literal (lines 623–627). -/
def glider : List (List ℕ) := [[0, 1, 0], [0, 0, 1], [1, 1, 1]]

/-- `pattern[y][x]` with default 0. -/
def patVal (pattern : List (List ℕ)) (y x : ℕ) : ℕ :=
  (pattern.getD y []).getD x 0

/-- A grid of the given size holding `pattern` with its top-left corner at
`(ar, ac)` and every other cell dead, all ages 0 and changed flags false
(the shape `initializeGrid` + stamping produces on a fresh grid). -/
def seedGrid (size : GridSize) (ar ac : ℕ) (pattern : List (List ℕ)) : Grid :=
  (List.range size.rows).map fun y =>
    (List.range size.cols).map fun x =>
      { state := some (if ar ≤ y ∧ y < ar + pattern.length ∧ ac ≤ x ∧
                          x < ac + (pattern.headD []).length
                       then patVal pattern (y - ar) (x - ac) else 0),
        age := 0, changed := false }

/-- Projection of a grid to its state matrix. -/
def gridStates (g : Grid) : List (List (Option ℕ)) :=
  g.map fun row => row.map fun c => c.state

/-- Conway preset: survive 2–3, birth 3, single state (`rulePresets.gameOfLife`
merged into the default rules), Moore neighborhood, wrapping off. -/
def conwayRules : Rules := ⟨2, 3, 3, 3, 1, .moore, false⟩

/-- Trail effect off (default `colorScheme` has `trailLength: 5`). -/
def noTrail : TrailCfg := ⟨false, 5⟩

def size10 : GridSize := ⟨10, 10⟩

/-- Per-cell transition of the main-thread fallback (lines 402–449 of
`computeNextGeneration`), transliterated separately from the worker: the
fallback mutates `newGrid[y][x]` (a copy of `grid[y][x]`) field by field and
finally stores the change flag. -/
def stepCellMain (rules : Rules) (cfg : TrailCfg) (cell : Cell)
    (neighbors stateSum : ℕ) : Cell :=
  if jsLive cell.state then
    let s := jsVal cell.state
    if rules.surviveMin ≤ neighbors ∧ neighbors ≤ rules.surviveMax then
      -- `newGrid[y][x].state` is written only when `nextState !== cell.state`;
      -- `newGrid[y][x].age += 1` always runs
      let st := if 1 < rules.states then
                  (if min (s + 1) rules.states ≠ s then
                    some (min (s + 1) rules.states)
                  else cell.state)
                else cell.state
      { state := st, age := cell.age + 1, changed := true }
    else
      if cfg.trailEffect then
        if cell.age + 1 > cfg.trailLength then
          { state := some 0, age := 0, changed := true }
        else
          { state := cell.state, age := cell.age + 1, changed := true }
      else
        { state := some 0, age := 0, changed := true }
  else
    if rules.birthMin ≤ neighbors ∧ neighbors ≤ rules.birthMax then
      let newState : Option ℕ :=
        if 1 < rules.states then
          if neighbors = 0 then none
          else some (max 1 (min (roundDiv stateSum neighbors) rules.states))
        else some 1
      { state := newState, age := 0, changed := true }
    else
      { state := cell.state, age := cell.age, changed := false }

/-- The main-thread fallback `computeNextGeneration` (lines 356–456): same
double loop over `gridSize`, reading neighbor data from the pre-step grid
and writing into a fresh copy; it produces only the new grid (no
`changedCells` list is built on this path). -/
def computeNextGeneration (rules : Rules) (cfg : TrailCfg) (size : GridSize)
    (g : Grid) : Grid :=
  (List.range size.rows).map fun y =>
    (List.range size.cols).map fun x =>
      let nd := neighborData rules.neighborhood rules.wrapping size g y x
      stepCellMain rules cfg (getCell g y x) nd.1 nd.2

/-- Overwrite `grid[y][x]` with `c` (a no-op when the indices fall outside
the actual list dimensions, which in-bounds writes never do on well-formed
grids). -/
def setCellList (g : Grid) (y x : ℕ) (c : Cell) : Grid :=
  g.set y ((g.getD y []).set x c)

/-- `(currentState + 1) % (rules.states + 1)` from `handleCanvasClick`;
`NaN` propagates through `+` and `%`. -/
def cellCycleState (states : ℕ) (v : Option ℕ) : Option ℕ :=
  match v with
  | some s => some ((s + 1) % (states + 1))
  | none => none

/-- The grid update performed by `handleCanvasClick` (lines 494–510) at grid
coordinates `(x, y)`: in bounds, cycle the state, reset `age` to 0 and set
`changed`; out of bounds, the guard fails and the grid is left untouched
(no error is raised). -/
def handleCanvasClick (size : GridSize) (states : ℕ) (g : Grid)
    (x y : ℤ) : Grid :=
  if 0 ≤ x ∧ x < (size.cols : ℤ) ∧ 0 ≤ y ∧ y < (size.rows : ℤ) then
    let c := getCell g y.toNat x.toNat
    setCellList g y.toNat x.toNat
      { state := cellCycleState states c.state, age := 0, changed := true }
  else g

/-- `currentState === 0 ? 1 : 0` from `handleCanvasMouseDown` (a `NaN`
state compares unequal to 0, so it is set to 0). -/
def toggleState (v : Option ℕ) : Option ℕ :=
  if v = some 0 then some 1 else some 0

/-- The grid update performed by `handleCanvasMouseDown` (lines 513–542)
when drawing (not panning, simulation paused): in bounds, toggle the state,
reset `age`, set `changed`; out of bounds, no update and no error. -/
def handleCanvasMouseDown (size : GridSize) (g : Grid) (x y : ℤ) : Grid :=
  if 0 ≤ x ∧ x < (size.cols : ℤ) ∧ 0 ≤ y ∧ y < (size.rows : ℤ) then
    let c := getCell g y.toNat x.toNat
    setCellList g y.toNat x.toNat
      { state := toggleState c.state, age := 0, changed := true }
  else g

/-- Modelled from the spec: `setCell(grid, row, col, state)` of §4.1, the
Grid Model single-cell edit the spec describes — `OutOfBounds` failure for
coordinates outside `[0,rows)×[0,cols)`, otherwise set the given `state`,
reset `age` to 0 and mark `changed`.  The source has no such function; its
single-cell edits are the canvas handlers above, which never raise.  This
definition exists only to compare the spec's claimed behavior with the
code's. -/
def setCellSpec (size : GridSize) (g : Grid) (row col : ℤ) (st : ℕ) :
    Except String Grid :=
  if 0 ≤ row ∧ row < (size.rows : ℤ) ∧ 0 ≤ col ∧ col < (size.cols : ℤ) then
    Except.ok (setCellList g row.toNat col.toNat
      { state := some st, age := 0, changed := true })
  else
    Except.error "OutOfBounds"

/-- One iteration of the `applyPattern` double loop (lines 749–759): stamp
pattern cell `p = (y, x)` at `(centerY + y, centerX + x)` if that target is
in bounds, writing the raw pattern value and age 0 (the `changed` flag is
whatever the copied cell already had). -/
def stampOne (size : GridSize) (pattern : List (List ℕ)) (cY cX : ℤ)
    (g : Grid) (p : ℕ × ℕ) : Grid :=
  let gy : ℤ := cY + p.1
  let gx : ℤ := cX + p.2
  if 0 ≤ gy ∧ gy < (size.rows : ℤ) ∧ 0 ≤ gx ∧ gx < (size.cols : ℤ) then
    let old := getCell g gy.toNat gx.toNat
    setCellList g gy.toNat gx.toNat
      { state := some (patVal pattern p.1 p.2), age := 0,
        changed := old.changed }
  else g

/-- The pattern-index pairs visited by `applyPattern`'s loops, in source
order: `y` over `pattern.length` outer, `x` over `pattern[0].length`
inner. -/
def patternPairs (pattern : List (List ℕ)) : List (ℕ × ℕ) :=
  (List.range pattern.length).flatMap fun y =>
    (List.range (pattern.headD []).length).map fun x => (y, x)

/-- `centerY = Math.floor(rows/2) - Math.floor(pattern.length/2)` (line
746; possibly negative for patterns taller than the grid). -/
def centerY (size : GridSize) (pattern : List (List ℕ)) : ℤ :=
  ((size.rows / 2 : ℕ) : ℤ) - ((pattern.length / 2 : ℕ) : ℤ)

/-- `centerX = Math.floor(cols/2) - Math.floor(pattern[0].length/2)`
(line 747). -/
def centerX (size : GridSize) (pattern : List (List ℕ)) : ℤ :=
  ((size.cols / 2 : ℕ) : ℤ) - (((pattern.headD []).length / 2 : ℕ) : ℤ)

/-- `applyPattern` (lines 744–763): centered anchor, then stamp every
pattern cell whose target is in bounds into a copy of the grid (the source
assumes a nonempty rectangular pattern — its loops read
`pattern[0].length`). -/
def applyPattern (size : GridSize) (g : Grid) (pattern : List (List ℕ)) :
    Grid :=
  (patternPairs pattern).foldl
    (stampOne size pattern (centerY size pattern) (centerX size pattern)) g

/-- Well-formed grid: list dimensions agree with `gridSize`. -/
def WF (size : GridSize) (g : Grid) : Prop :=
  g.length = size.rows ∧ ∀ row ∈ g, row.length = size.cols

/-- The spec's cell-state invariant `0 <= state <= states` (a `NaN` state
violates it); `age ≥ 0` is automatic for `ℕ`. -/
def cellInv (states : ℕ) (c : Cell) : Bool :=
  match c.state with
  | some s => decide (s ≤ states)
  | none => false

/-- Whole-grid form of the cell-state invariant. -/
def gridInv (states : ℕ) (g : Grid) : Bool :=
  g.all fun row => row.all fun c => cellInv states c

/-- Rule configuration exercising the division-by-zero corner:
`birthMin = 0` with `states = 2` (both fields within their documented
ranges). -/
def nanRules : Rules := ⟨2, 3, 0, 8, 2, .moore, false⟩

def size1 : GridSize := ⟨1, 1⟩

/-- A 1×1 all-dead grid. -/
def deadGrid1 : Grid := [[⟨some 0, 0, false⟩]]

/-! ## Helper lemmas -/

lemma jsLive_some {v : Option ℕ} (h : jsLive v = true) : v = some (jsVal v) := by
  cases v with
  | some s => rfl
  | none => simp [jsLive] at h

/-- The two per-cell transitions (worker and main-thread fallback) agree. -/
lemma stepCellMain_eq_worker (rules : Rules) (cfg : TrailCfg) (cell : Cell)
    (neighbors stateSum : ℕ) :
    stepCellMain rules cfg cell neighbors stateSum =
      stepCellWorker rules cfg cell neighbors stateSum := by
  unfold stepCellMain stepCellWorker
  cases hv : cell.state with
  | none => simp [jsLive]
  | some s =>
    by_cases hl : jsLive (some s)
    · simp only [hl, if_true, jsVal, Option.getD_some]
      by_cases hs : rules.surviveMin ≤ neighbors ∧ neighbors ≤ rules.surviveMax
      · simp only [hs, if_true]
        by_cases hst : 1 < rules.states
        · simp only [hst, if_true]
          by_cases hne : min (s + 1) rules.states ≠ s
          · simp [hne]
          · push_neg at hne
            simp [hne]
        · simp [hst]
      · simp [hs]
    · simp [hl]

/-- Reading an entry of a grid built as a double `range`-map. -/
lemma getCell_mapRange (f : ℕ → ℕ → Cell) {rows cols y x : ℕ}
    (hy : y < rows) (hx : x < cols) :
    getCell ((List.range rows).map fun y => (List.range cols).map fun x => f y x)
      y x = f y x := by
  simp [getCell, List.getD_eq_getElem?_getD, List.getElem?_map,
    List.getElem?_range, hy, hx]

/-- Every total read of a grid satisfying the invariant satisfies it, the
default cell included. -/
lemma cellInv_getCell {st : ℕ} {g : Grid}
    (h : gridInv st g = true) (y x : ℕ) : cellInv st (getCell g y x) = true := by
  simp only [gridInv, List.all_eq_true] at h
  unfold getCell
  rw [List.getD_eq_getElem?_getD, List.getD_eq_getElem?_getD]
  rcases hy : g[y]? with _ | row
  · simp [defaultCell, cellInv]
  · rcases hx : row[x]? with _ | c
    · simp [hx, defaultCell, cellInv]
    · simp only [hx, Option.getD_some]
      exact h row (List.getElem?_mem hy) c (List.getElem?_mem hx)

/-- Per-cell invariant preservation, under the side condition that rules
out the division-by-zero birth corner (`birthMin ≥ 1` or a single-state
automaton). -/
lemma stepCellWorker_inv {rules : Rules} {cfg : TrailCfg} {cell : Cell}
    {n ss : ℕ} (h1 : 1 ≤ rules.states)
    (hsafe : 1 ≤ rules.birthMin ∨ rules.states = 1)
    (hc : cellInv rules.states cell = true) :
    cellInv rules.states (stepCellWorker rules cfg cell n ss) = true := by
  cases hv : cell.state with
  | none =>
    simp only [cellInv, hv] at hc
    exact absurd hc (by simp)
  | some s =>
    simp only [cellInv, hv, decide_eq_true_eq] at hc
    simp only [stepCellWorker, hv, jsVal, Option.getD_some]
    by_cases hl : jsLive (some s) = true
    · rw [if_pos hl]
      by_cases hs : rules.surviveMin ≤ n ∧ n ≤ rules.surviveMax
      · rw [if_pos hs]
        by_cases hst : 1 < rules.states
        · rw [if_pos hst]
          simp only [cellInv, decide_eq_true_eq]
          omega
        · rw [if_neg hst]
          simp only [cellInv, decide_eq_true_eq]
          exact hc
      · rw [if_neg hs]
        by_cases ht : cfg.trailEffect = true
        · rw [if_pos ht]
          by_cases ha : cell.age + 1 > cfg.trailLength
          · rw [if_pos ha]
            simp [cellInv]
          · rw [if_neg ha]
            simp only [cellInv, decide_eq_true_eq]
            exact hc
        · rw [if_neg ht]
          simp [cellInv]
    · rw [if_neg hl]
      by_cases hb : rules.birthMin ≤ n ∧ n ≤ rules.birthMax
      · rw [if_pos hb]
        obtain ⟨hb1, hb2⟩ := hb
        by_cases hst : 1 < rules.states
        · have hn0 : ¬ n = 0 := by
            rcases hsafe with h | h <;> omega
          rw [if_pos hst, if_neg hn0]
          simp only [cellInv, decide_eq_true_eq]
          omega
        · rw [if_neg hst]
          simp only [cellInv, decide_eq_true_eq]
          exact h1
      · rw [if_neg hb]
        simp only [cellInv, hv, decide_eq_true_eq]
        exact hc

/-! ## C1 — simultaneous (snapshot) update -/

/-- C1: every cell of the step engine's output grid is exactly the per-cell
transition of the corresponding input cell under neighbor data computed
from the pre-step snapshot `g` alone — `stepCellWorker` and `neighborData`
take only the input grid, so no already-written output cell can influence
any other cell: the update is simultaneous. -/
theorem C1_simultaneous_snapshot_update (rules : Rules) (cfg : TrailCfg)
    (size : GridSize) (g : Grid) (y x : ℕ)
    (hy : y < size.rows) (hx : x < size.cols) :
    getCell (workerOnMessage rules cfg size g).1 y x =
      stepCellWorker rules cfg (getCell g y x)
        (neighborData rules.neighborhood rules.wrapping size g y x).1
        (neighborData rules.neighborhood rules.wrapping size g y x).2 := by
  unfold workerOnMessage
  exact getCell_mapRange _ hy hx

/-- Witness for C1 at a concrete in-bounds cell of a concrete grid. -/
theorem C1_simultaneous_snapshot_update_witness :
    3 < size10.rows ∧ 3 < size10.cols ∧
      getCell (workerOnMessage conwayRules noTrail size10
          (seedGrid size10 3 3 glider)).1 3 3 =
        stepCellWorker conwayRules noTrail
          (getCell (seedGrid size10 3 3 glider) 3 3)
          (neighborData conwayRules.neighborhood conwayRules.wrapping size10
            (seedGrid size10 3 3 glider) 3 3).1
          (neighborData conwayRules.neighborhood conwayRules.wrapping size10
            (seedGrid size10 3 3 glider) 3 3).2 :=
  ⟨by decide, by decide,
    C1_simultaneous_snapshot_update conwayRules noTrail size10
      (seedGrid size10 3 3 glider) 3 3 (by decide) (by decide)⟩

/-! ## C2 — Conway glider equivalence -/

/-- C2: under Conway's rules (survive 2–3, birth 3, states 1, Moore, no
wrapping, no trail), the glider seed `[[0,1,0],[0,0,1],[1,1,1]]` placed at
`(3,3)` on an empty 10×10 grid reproduces, after 4 steps of the engine, the
same shape translated by `(1,1)`, with every other cell dead. -/
theorem C2_glider_period_four :
    gridStates (stepIter conwayRules noTrail size10 4 (seedGrid size10 3 3 glider)) =
      gridStates (seedGrid size10 4 4 glider) := by decide

/-! ## C3 — cell-state invariant (corrected: needs `birthMin ≥ 1` or
`states = 1`) -/

/-- C3, counterexample to the claim as stated: with `states = 2 ∈ [1,5]`
and `birthMin = 0`, a 1×1 all-dead grid satisfies the invariant, yet after
one step its cell holds a `NaN` state (`Math.round(0/0)` propagated through
`Math.min`/`Math.max`), so the output violates `0 ≤ state ≤ states`. -/
theorem C3_invariant_counterexample :
    gridInv nanRules.states deadGrid1 = true ∧
    1 ≤ nanRules.states ∧ nanRules.states ≤ 5 ∧
    gridInv nanRules.states (workerOnMessage nanRules noTrail size1 deadGrid1).1
      ≠ true := by decide

/-- C3, amended: for every rule configuration with `states ∈ [1,5]` that in
addition has `birthMin ≥ 1` or `states = 1` (ruling out the
division-by-zero birth corner), a step maps any grid whose cells all
satisfy `0 ≤ state ≤ states` (with `age ≥ 0`, automatic in `ℕ`) to a grid
whose cells all satisfy it — through the survival, trail-death,
instant-death and birth branches alike. -/
theorem C3_invariant_preserved (rules : Rules) (cfg : TrailCfg)
    (size : GridSize) (g : Grid)
    (h1 : 1 ≤ rules.states) (_h5 : rules.states ≤ 5)
    (hsafe : 1 ≤ rules.birthMin ∨ rules.states = 1)
    (hg : gridInv rules.states g = true) :
    gridInv rules.states (workerOnMessage rules cfg size g).1 = true := by
  have : ∀ row ∈ (workerOnMessage rules cfg size g).1, ∀ c ∈ row,
      cellInv rules.states c = true := by
    intro row hrow c hc
    simp only [workerOnMessage, List.mem_map, List.mem_range] at hrow
    obtain ⟨y, hy, rfl⟩ := hrow
    simp only [List.mem_map, List.mem_range] at hc
    obtain ⟨x, hx, rfl⟩ := hc
    exact stepCellWorker_inv h1 hsafe (cellInv_getCell hg y x)
  simpa [gridInv, List.all_eq_true] using this

/-- Witness for the amended C3 on a concrete configuration and grid. -/
theorem C3_invariant_preserved_witness :
    1 ≤ conwayRules.states ∧ conwayRules.states ≤ 5 ∧
    (1 ≤ conwayRules.birthMin ∨ conwayRules.states = 1) ∧
    gridInv conwayRules.states (seedGrid size10 3 3 glider) = true ∧
    gridInv conwayRules.states
      (workerOnMessage conwayRules noTrail size10 (seedGrid size10 3 3 glider)).1
      = true :=
  ⟨by decide, by decide, Or.inr rfl, by decide,
    C3_invariant_preserved conwayRules noTrail size10 (seedGrid size10 3 3 glider)
      (by decide) (by decide) (Or.inr rfl) (by decide)⟩

/-! ## C4 — multi-state birth averaging -/

/-- Rules for the averaging example: `states = 5`, birth range 2–3 so that
two live neighbors trigger a birth. -/
def avgRules : Rules := ⟨2, 3, 2, 3, 5, .moore, false⟩

def size3 : GridSize := ⟨3, 3⟩

/-- 3×3 grid whose corner cells `(0,0)` and `(0,2)` are live with states 1
and 3; both are neighbors of the dead center `(1,1)`. -/
def avgGrid : Grid := seedGrid size3 0 0 [[1, 0, 3], [0, 0, 0], [0, 0, 0]]

/-- C4: a dead cell whose neighbor count lies in the birth range, with
`states > 1` and a positive neighbor count, is born with state
`clamp(round(stateSum / neighborCount), 1, states)` — `roundDiv` is the
exact round-half-up of the quotient, and `max 1 (min · states)` is the
clamp the source computes.  In particular, on `avgGrid` (two live
neighbors with states 1 and 3 under a `states = 5` configuration) the
center cell is born with state `round((1+3)/2) = 2`. -/
theorem C4_birth_rounded_average :
    (∀ (rules : Rules) (cfg : TrailCfg) (cell : Cell) (n ss : ℕ),
      jsLive cell.state = false →
      rules.birthMin ≤ n → n ≤ rules.birthMax →
      1 < rules.states → 0 < n →
      (stepCellWorker rules cfg cell n ss).state =
        some (max 1 (min (roundDiv ss n) rules.states))) ∧
    (getCell (workerOnMessage avgRules noTrail size3 avgGrid).1 1 1).state
      = some 2 := by
  constructor
  · intro rules cfg cell n ss hdead hb1 hb2 hst hn
    unfold stepCellWorker
    simp [hdead, hb1, hb2, hst, hn.ne']
  · decide

/-- Witness for C4's universally quantified part at the concrete neighbor
data of `avgGrid`'s center (`n = 2`, `stateSum = 4`). -/
theorem C4_birth_rounded_average_witness :
    jsLive (some 0) = false ∧ avgRules.birthMin ≤ 2 ∧ 2 ≤ avgRules.birthMax ∧
    1 < avgRules.states ∧ 0 < 2 ∧
    (stepCellWorker avgRules noTrail ⟨some 0, 0, false⟩ 2 4).state =
      some (max 1 (min (roundDiv 4 2) avgRules.states)) :=
  ⟨by decide, by decide, by decide, by decide, by decide,
    C4_birth_rounded_average.1 avgRules noTrail ⟨some 0, 0, false⟩ 2 4
      (by decide) (by decide) (by decide) (by decide) (by decide)⟩

/-! ## C5 — division by zero in the birth average (code bug) -/

/-- C5: the source does **not** special-case `neighborCount = 0`.  With
`birthMin = 0`, `states = 2` and an isolated dead cell, the birth branch
computes `Math.round(stateSum / neighbors)` with `neighbors = 0`, i.e.
`NaN`, and `Math.max(1, Math.min(NaN, states))` is `NaN`; the output grid
stores a `NaN` state (modelled `none`) instead of the claimed state 1. -/
theorem C5_divzero_reaches_grid :
    (getCell (workerOnMessage nanRules noTrail size1 deadGrid1).1 0 0).state
        = none ∧
    (none : Option ℕ) ≠ some 1 := by decide

/-! ## C6 — trail decay (corrected: clears one tick earlier than claimed) -/

/-- Trail effect on with `trailLength = 3`. -/
def trail3 : TrailCfg := ⟨true, 3⟩

/-- A 1×1 grid holding a single cell. -/
def oneCell (c : Cell) : Grid := [[c]]

/-- On a 1×1 non-wrapping grid every Moore offset is out of bounds, so the
neighbor data is `(0, 0)`. -/
lemma neighborData_moore_1x1 (g : Grid) :
    neighborData .moore false size1 g 0 0 = (0, 0) := rfl

/-- One worker step of a 1×1 grid under Conway rules with the trail
effect reduces to the per-cell transition with zero neighbors. -/
lemma step_1x1 (c : Cell) :
    (workerOnMessage conwayRules trail3 size1 (oneCell c)).1 =
      oneCell (stepCellWorker conwayRules trail3 c 0 0) := rfl

/-- An isolated live cell (zero neighbors is outside Conway's survive
range 2–3) takes the trail-death branch: its state is kept and its age
advances until the incremented age exceeds `trailLength = 3`, at which
point state and age clear to 0. -/
lemma stepCell_trail_remnant (s a : ℕ) (ch : Bool) (hs : 0 < s) :
    stepCellWorker conwayRules trail3 ⟨some s, a, ch⟩ 0 0 =
      if a + 1 > 3 then ⟨some 0, 0, true⟩ else ⟨some s, a + 1, true⟩ := by
  simp [stepCellWorker, jsLive, jsVal, conwayRules, trail3, hs]

/-- C6, counterexample to the claim as stated: an isolated cell, alive
with age 0 at tick 0 under Conway rules with `trailEffect = true`,
`trailLength = 3`, dies at tick `T = 1` (tick 1 is the first remnant:
state kept, age 1, recorded as changed).  The claim requires a nonzero
state through ticks `T+1..T+3 = 2,3,4` with the clear only at `T+4 = 5`,
but at tick `T+3 = 4` the cell has already cleared to state 0 — the
remnant only survives ticks 1–3 (`age` 1,2,3; the step out of age 3 makes
`age+1 = 4 > trailLength`). -/
theorem C6_trail_decay_counterexample :
    (getCell (stepIter conwayRules trail3 size1 0 (oneCell ⟨some 1, 0, false⟩)) 0 0).state
        = some 1 ∧
    getCell (stepIter conwayRules trail3 size1 1 (oneCell ⟨some 1, 0, false⟩)) 0 0
        = ⟨some 1, 1, true⟩ ∧
    (getCell (stepIter conwayRules trail3 size1 3 (oneCell ⟨some 1, 0, false⟩)) 0 0).state
        = some 1 ∧
    (getCell (stepIter conwayRules trail3 size1 4 (oneCell ⟨some 1, 0, false⟩)) 0 0).state
        = some 0 := by decide

/-- C6, amended: with `trailEffect = true` and `trailLength = 3`, a cell
alive with age 0 that dies at tick `T = 1` (fails the survive range at
every tick — here an isolated cell under Conway survive 2–3) retains its
unchanged nonzero state through ticks `T`, `T+1`, `T+2` with its age
advancing 1, 2, 3, and clears state and age to 0 exactly at tick
`T+3` — one tick earlier than the claim's `T+4`. -/
theorem C6_trail_decay_amended (s : ℕ) (hs : 0 < s) :
    stepIter conwayRules trail3 size1 1 (oneCell ⟨some s, 0, false⟩)
        = oneCell ⟨some s, 1, true⟩ ∧
    stepIter conwayRules trail3 size1 2 (oneCell ⟨some s, 0, false⟩)
        = oneCell ⟨some s, 2, true⟩ ∧
    stepIter conwayRules trail3 size1 3 (oneCell ⟨some s, 0, false⟩)
        = oneCell ⟨some s, 3, true⟩ ∧
    stepIter conwayRules trail3 size1 4 (oneCell ⟨some s, 0, false⟩)
        = oneCell ⟨some 0, 0, true⟩ := by
  have h1 : stepIter conwayRules trail3 size1 1 (oneCell ⟨some s, 0, false⟩)
      = oneCell ⟨some s, 1, true⟩ := by
    show (workerOnMessage conwayRules trail3 size1
      (stepIter conwayRules trail3 size1 0 (oneCell ⟨some s, 0, false⟩))).1 = _
    rw [stepIter, step_1x1, stepCell_trail_remnant s 0 false hs]
    simp
  have h2 : stepIter conwayRules trail3 size1 2 (oneCell ⟨some s, 0, false⟩)
      = oneCell ⟨some s, 2, true⟩ := by
    show (workerOnMessage conwayRules trail3 size1
      (stepIter conwayRules trail3 size1 1 (oneCell ⟨some s, 0, false⟩))).1 = _
    rw [h1, step_1x1, stepCell_trail_remnant s 1 true hs]
    simp
  have h3 : stepIter conwayRules trail3 size1 3 (oneCell ⟨some s, 0, false⟩)
      = oneCell ⟨some s, 3, true⟩ := by
    show (workerOnMessage conwayRules trail3 size1
      (stepIter conwayRules trail3 size1 2 (oneCell ⟨some s, 0, false⟩))).1 = _
    rw [h2, step_1x1, stepCell_trail_remnant s 2 true hs]
    simp
  have h4 : stepIter conwayRules trail3 size1 4 (oneCell ⟨some s, 0, false⟩)
      = oneCell ⟨some 0, 0, true⟩ := by
    show (workerOnMessage conwayRules trail3 size1
      (stepIter conwayRules trail3 size1 3 (oneCell ⟨some s, 0, false⟩))).1 = _
    rw [h3, step_1x1, stepCell_trail_remnant s 3 true hs]
    simp
  exact ⟨h1, h2, h3, h4⟩

/-- Witness for the amended C6 at `s = 1`. -/
theorem C6_trail_decay_amended_witness :
    0 < 1 ∧
    (stepIter conwayRules trail3 size1 1 (oneCell ⟨some 1, 0, false⟩)
        = oneCell ⟨some 1, 1, true⟩ ∧
     stepIter conwayRules trail3 size1 2 (oneCell ⟨some 1, 0, false⟩)
        = oneCell ⟨some 1, 2, true⟩ ∧
     stepIter conwayRules trail3 size1 3 (oneCell ⟨some 1, 0, false⟩)
        = oneCell ⟨some 1, 3, true⟩ ∧
     stepIter conwayRules trail3 size1 4 (oneCell ⟨some 1, 0, false⟩)
        = oneCell ⟨some 0, 0, true⟩) :=
  ⟨by decide, C6_trail_decay_amended 1 (by decide)⟩

/-! ## C7 — single-cell edits (corrected: out-of-bounds edits are silent) -/

/-- `(l.set i a).getD j d` described pointwise. -/
lemma getD_set {α : Type} (l : List α) (i j : ℕ) (a d : α) :
    (l.set i a).getD j d = if i = j ∧ i < l.length then a else l.getD j d := by
  rw [List.getD_eq_getElem?_getD, List.getD_eq_getElem?_getD, List.getElem?_set]
  by_cases hij : i = j
  · subst hij
    by_cases hl : i < l.length
    · simp [hl]
    · have : l[i]? = none := by
        rw [List.getElem?_eq_none_iff]
        omega
      simp [hl, this]
  · simp [hij]

/-- `getCell` after a single-cell overwrite: the written cell at the target
(when the indices are inside the actual lists), every other position
unchanged. -/
lemma getCell_setCellList (g : Grid) (y x : ℕ) (c : Cell) (y' x' : ℕ) :
    getCell (setCellList g y x c) y' x' =
      if y = y' ∧ y < g.length ∧ x = x' ∧ x < (g.getD y []).length then c
      else getCell g y' x' := by
  unfold getCell setCellList
  rw [getD_set]
  by_cases hy : y = y' ∧ y < g.length
  · rw [if_pos hy]
    obtain ⟨hyy, hylen⟩ := hy
    rw [getD_set]
    by_cases hx : x = x' ∧ x < (g.getD y []).length
    · rw [if_pos hx, if_pos ⟨hyy, hylen, hx.1, hx.2⟩]
    · rw [if_neg hx, if_neg (by tauto), hyy]
  · rw [if_neg hy, if_neg (by tauto)]

/-- Rows of a well-formed grid have length `cols`. -/
lemma WF_row_length {size : GridSize} {g : Grid} (hwf : WF size g)
    {y : ℕ} (hy : y < size.rows) : (g.getD y []).length = size.cols := by
  have hylen : y < g.length := by rw [hwf.1]; exact hy
  rw [List.getD_eq_getElem?_getD]
  rcases hg : g[y]? with _ | row
  · rw [List.getElem?_eq_none_iff] at hg
    omega
  · exact hwf.2 row (List.getElem?_mem hg)

/-- Concrete 2×2 size and all-dead grid for witnesses/counterexamples. -/
def size2 : GridSize := ⟨2, 2⟩

def grid2 : Grid :=
  [[defaultCell, defaultCell], [defaultCell, defaultCell]]

/-- C7, counterexample to the claim as stated: the code's single-cell edit
(`handleCanvasClick`, with `handleCanvasMouseDown` sharing the same guard)
does **not** raise an `OutOfBounds` error at `row = rows`: its bounds guard
simply fails and the handler returns with the grid untouched, no error
value of any kind.  The spec-modelled `setCellSpec` shows what the claim
demands at the same input: an `OutOfBounds` failure. -/
theorem C7_edit_counterexample :
    handleCanvasClick size2 1 grid2 0 2 = grid2 ∧
    handleCanvasMouseDown size2 grid2 (-1) 0 = grid2 ∧
    setCellSpec size2 grid2 2 0 1 = Except.error "OutOfBounds" :=
  ⟨rfl, rfl, rfl⟩

/-- C7, amended: an out-of-bounds single-cell edit (e.g. `row = rows` or
`col = -1`) is silently ignored — the grid is returned unchanged and no
error is raised; an in-bounds edit sets the target cell's state (the click
handler cycles it to `(state+1) mod (states+1)`), resets its age to 0,
marks it changed, and leaves every other cell unchanged. -/
theorem C7_edit_amended (size : GridSize) (states : ℕ) (g : Grid)
    (x y : ℤ) (hwf : WF size g) :
    (¬(0 ≤ x ∧ x < (size.cols : ℤ) ∧ 0 ≤ y ∧ y < (size.rows : ℤ)) →
      handleCanvasClick size states g x y = g) ∧
    ((0 ≤ x ∧ x < (size.cols : ℤ) ∧ 0 ≤ y ∧ y < (size.rows : ℤ)) →
      getCell (handleCanvasClick size states g x y) y.toNat x.toNat =
        ⟨cellCycleState states (getCell g y.toNat x.toNat).state, 0, true⟩ ∧
      ∀ y' x' : ℕ, ¬(y' = y.toNat ∧ x' = x.toNat) →
        getCell (handleCanvasClick size states g x y) y' x' =
          getCell g y' x') := by
  constructor
  · intro h
    unfold handleCanvasClick
    rw [if_neg h]
  · intro h
    have hb := h
    obtain ⟨hx0, hxc, hy0, hyr⟩ := hb
    have hylen : y.toNat < g.length := by
      rw [hwf.1]; omega
    have hxlen : x.toNat < (g.getD y.toNat []).length := by
      rw [WF_row_length hwf (by omega)]; omega
    unfold handleCanvasClick
    rw [if_pos h]
    constructor
    · rw [getCell_setCellList, if_pos ⟨rfl, hylen, rfl, hxlen⟩]
    · intro y' x' hne
      rw [getCell_setCellList, if_neg (by tauto)]

/-- Witness for the amended C7: clicking grid cell `(row 1, col 0)` of a
2×2 grid updates exactly that cell; cell `(0,0)` is untouched. -/
theorem C7_edit_amended_witness :
    getCell (handleCanvasClick size2 1 grid2 0 1) 1 0 =
      ⟨cellCycleState 1 (getCell grid2 1 0).state, 0, true⟩ ∧
    getCell (handleCanvasClick size2 1 grid2 0 1) 0 0 = getCell grid2 0 0 := by
  have h := (C7_edit_amended size2 1 grid2 0 1 ⟨rfl, by decide⟩).2 (by decide)
  exact ⟨h.1, h.2 0 0 (by decide)⟩

/-! ## C8 — pattern stamping (corrected: no clamping) -/

/-- `setCellList` preserves well-formedness. -/
lemma WF_setCellList {size : GridSize} {g : Grid} (hwf : WF size g)
    (y x : ℕ) (c : Cell) : WF size (setCellList g y x c) := by
  constructor
  · rw [setCellList, List.length_set]
    exact hwf.1
  · intro row hrow
    unfold setCellList at hrow
    by_cases hy : y < g.length
    · rcases List.mem_or_eq_of_mem_set hrow with h | h
      · exact hwf.2 row h
      · subst h
        rw [List.length_set]
        exact WF_row_length hwf (by rw [← hwf.1]; exact hy)
    · rw [List.set_eq_of_length_le (by omega)] at hrow
      exact hwf.2 row hrow

/-- `stampOne` preserves well-formedness. -/
lemma WF_stampOne {size : GridSize} {pattern : List (List ℕ)} {cY cX : ℤ}
    {g : Grid} (hwf : WF size g) (p : ℕ × ℕ) :
    WF size (stampOne size pattern cY cX g p) := by
  simp only [stampOne]
  split_ifs with h
  · exact WF_setCellList hwf _ _ _
  · exact hwf

/-- A stamp whose (in-bounds) target is `(gy, gx)` writes the raw pattern
value there, resetting the age and keeping the copied changed flag. -/
lemma getCell_stampOne_eq {size : GridSize} {pattern : List (List ℕ)}
    {cY cX : ℤ} {g : Grid} {py px gy gx : ℕ} (hwf : WF size g)
    (hy : cY + py = (gy : ℤ)) (hx : cX + px = (gx : ℤ))
    (hgy : gy < size.rows) (hgx : gx < size.cols) :
    getCell (stampOne size pattern cY cX g (py, px)) gy gx =
      ⟨some (patVal pattern py px), 0, (getCell g gy gx).changed⟩ := by
  simp only [stampOne]
  rw [if_pos (by omega :
    0 ≤ cY + (py : ℤ) ∧ cY + (py : ℤ) < (size.rows : ℤ) ∧
    0 ≤ cX + (px : ℤ) ∧ cX + (px : ℤ) < (size.cols : ℤ))]
  have h1 : (cY + (py : ℤ)).toNat = gy := by omega
  have h2 : (cX + (px : ℤ)).toNat = gx := by omega
  rw [h1, h2, getCell_setCellList,
    if_pos ⟨rfl, by rw [hwf.1]; exact hgy, rfl,
      by rw [WF_row_length hwf hgy]; exact hgx⟩]

/-- A stamp not writing to `(gy, gx)` (wrong target, or target out of the
grid) leaves that cell unchanged. -/
lemma getCell_stampOne_ne {size : GridSize} {pattern : List (List ℕ)}
    {cY cX : ℤ} {g : Grid} {p : ℕ × ℕ} {gy gx : ℕ}
    (h : ¬(cY + p.1 = (gy : ℤ) ∧ cX + p.2 = (gx : ℤ) ∧
           gy < size.rows ∧ gx < size.cols)) :
    getCell (stampOne size pattern cY cX g p) gy gx = getCell g gy gx := by
  simp only [stampOne]
  split_ifs with hg
  · rw [getCell_setCellList, if_neg ?_]
    rintro ⟨h1, -, h2, -⟩
    exact h (by omega)
  · rfl

/-- Folding stamps none of which target `(gy, gx)` leaves it unchanged. -/
lemma getCell_stampFold_none {size : GridSize} {pattern : List (List ℕ)}
    {cY cX : ℤ} {gy gx : ℕ} (ps : List (ℕ × ℕ)) :
    ∀ g : Grid,
      (∀ q ∈ ps, ¬(cY + q.1 = (gy : ℤ) ∧ cX + q.2 = (gx : ℤ) ∧
          gy < size.rows ∧ gx < size.cols)) →
      getCell (ps.foldl (stampOne size pattern cY cX) g) gy gx =
        getCell g gy gx := by
  induction ps with
  | nil => intro g _; rfl
  | cons q ps ih =>
    intro g h
    rw [List.foldl_cons,
      ih _ (fun q' hq' => h q' (List.mem_cons_of_mem _ hq')),
      getCell_stampOne_ne (h q (List.mem_cons_self _ _))]

/-- Folding stamps where `(py, px)` is the unique pair targeting
`(gy, gx)` (an in-bounds target): the cell holds the raw pattern value
exactly when `(py, px)` occurs in the fold. -/
lemma getCell_stampFold_write {size : GridSize} {pattern : List (List ℕ)}
    {cY cX : ℤ} {gy gx py px : ℕ}
    (hy : cY + py = (gy : ℤ)) (hx : cX + px = (gx : ℤ))
    (hgy : gy < size.rows) (hgx : gx < size.cols) (ps : List (ℕ × ℕ)) :
    ∀ g : Grid, WF size g →
      (∀ q ∈ ps, (cY + q.1 = (gy : ℤ) ∧ cX + q.2 = (gx : ℤ)) → q = (py, px)) →
      getCell (ps.foldl (stampOne size pattern cY cX) g) gy gx =
        if (py, px) ∈ ps then
          ⟨some (patVal pattern py px), 0, (getCell g gy gx).changed⟩
        else getCell g gy gx := by
  induction ps with
  | nil => intro g _ _; simp
  | cons q ps ih =>
    intro g hwf huniq
    rw [List.foldl_cons,
      ih _ (WF_stampOne hwf _)
        (fun q' hq' hw' => huniq q' (List.mem_cons_of_mem _ hq') hw')]
    by_cases hq : q = (py, px)
    · subst hq
      rw [getCell_stampOne_eq hwf hy hx hgy hgx,
        if_pos (List.mem_cons_self _ _)]
      split_ifs <;> rfl
    · have hqn : ¬(cY + q.1 = (gy : ℤ) ∧ cX + q.2 = (gx : ℤ) ∧
          gy < size.rows ∧ gx < size.cols) := by
        rintro ⟨h1, h2, -, -⟩
        exact hq (huniq q (List.mem_cons_self _ _) ⟨h1, h2⟩)
      rw [getCell_stampOne_ne hqn]
      have hiff : ((py, px) ∈ q :: ps) ↔ ((py, px) ∈ ps) := by
        simp only [List.mem_cons]
        exact or_iff_right (fun h => hq h.symm)
      rw [if_congr hiff rfl rfl]

/-- Membership in the stamp loop's index pairs. -/
lemma mem_patternPairs {pattern : List (List ℕ)} {p : ℕ × ℕ} :
    p ∈ patternPairs pattern ↔
      p.1 < pattern.length ∧ p.2 < (pattern.headD []).length := by
  obtain ⟨a, b⟩ := p
  simp [patternPairs, List.mem_flatMap, eq_comm]

/-- C8, counterexample to the claim as stated: `applyPattern` performs no
clamping — it writes the raw pattern value.  Stamping `[[7]]` on a 1×1
grid stores state 7, whereas the claim's clamp to `[0, states]` would
store `min 7 1 = 1` under the default `states = 1` configuration (indeed
`applyPattern` never reads `rules.states` at all). -/
theorem C8_stamp_counterexample :
    (getCell (applyPattern size1 deadGrid1 [[7]]) 0 0).state = some 7 ∧
    (some 7 : Option ℕ) ≠ some (min 7 1) := by decide

/-- C8, amended: stamping writes, for each pattern cell whose centered
target lies inside the grid, the **raw** pattern value (no clamping) as
that cell's state and resets its age to 0 (its changed flag keeps the
copied value); pattern cells landing outside the grid are dropped
silently; and every grid cell not covered by an in-bounds pattern cell
keeps its state, age and changed flag unchanged. -/
theorem C8_stamp_characterization (size : GridSize) (g : Grid)
    (pattern : List (List ℕ)) (hwf : WF size g) (gy gx : ℕ) :
    (∀ py px : ℕ, py < pattern.length → px < (pattern.headD []).length →
      centerY size pattern + py = (gy : ℤ) →
      centerX size pattern + px = (gx : ℤ) →
      gy < size.rows → gx < size.cols →
      getCell (applyPattern size g pattern) gy gx =
        ⟨some (patVal pattern py px), 0, (getCell g gy gx).changed⟩) ∧
    ((∀ py px : ℕ, py < pattern.length → px < (pattern.headD []).length →
        ¬(centerY size pattern + py = (gy : ℤ) ∧
          centerX size pattern + px = (gx : ℤ) ∧
          gy < size.rows ∧ gx < size.cols)) →
      getCell (applyPattern size g pattern) gy gx = getCell g gy gx) := by
  constructor
  · intro py px hpy hpx hy hx hgy hgx
    unfold applyPattern
    rw [getCell_stampFold_write hy hx hgy hgx (patternPairs pattern) g hwf ?_]
    · rw [if_pos (mem_patternPairs.mpr ⟨hpy, hpx⟩)]
    · rintro ⟨q1, q2⟩ hq ⟨h1, h2⟩
      have hq1 : q1 = py := by omega
      have hq2 : q2 = px := by omega
      rw [hq1, hq2]
  · intro hnone
    unfold applyPattern
    apply getCell_stampFold_none
    rintro q hq ⟨h1, h2, h3, h4⟩
    exact hnone q.1 q.2 (mem_patternPairs.mp hq).1 (mem_patternPairs.mp hq).2
      ⟨h1, h2, h3, h4⟩

/-- Witness for C8 on a 2×2 grid: stamping `[[5]]` (centered target
`(1,1)`) writes state 5 and age 0 there and leaves `(0,0)` unchanged. -/
theorem C8_stamp_characterization_witness :
    getCell (applyPattern size2 grid2 [[5]]) 1 1 =
      ⟨some (patVal [[5]] 0 0), 0, (getCell grid2 1 1).changed⟩ ∧
    getCell (applyPattern size2 grid2 [[5]]) 0 0 = getCell grid2 0 0 :=
  ⟨(C8_stamp_characterization size2 grid2 [[5]] ⟨rfl, by decide⟩ 1 1).1
      0 0 (by decide) (by decide) (by decide) (by decide) (by decide) (by decide),
   (C8_stamp_characterization size2 grid2 [[5]] ⟨rfl, by decide⟩ 0 0).2
      (by
        intro py px hpy hpx
        rintro ⟨h1, -, -, -⟩
        have hc : centerY size2 [[5]] = 1 := rfl
        rw [hc] at h1
        omega)⟩

/-! ## C9 — determinism -/

/-- C9: the step engine is deterministic — it is a pure function of the
input grid, rule configuration and trail configuration; two invocations on
equal inputs produce equal output grids and equal changed-cell lists.  (No
randomness or ambient state occurs anywhere in the embedded worker code,
lines 84–183.) -/
theorem C9_step_deterministic (r₁ r₂ : Rules) (c₁ c₂ : TrailCfg)
    (s₁ s₂ : GridSize) (g₁ g₂ : Grid)
    (hr : r₁ = r₂) (hc : c₁ = c₂) (hs : s₁ = s₂) (hg : g₁ = g₂) :
    workerOnMessage r₁ c₁ s₁ g₁ = workerOnMessage r₂ c₂ s₂ g₂ := by
  subst hr; subst hc; subst hs; subst hg; rfl

/-- Witness for C9 on a concrete input. -/
theorem C9_step_deterministic_witness :
    workerOnMessage conwayRules noTrail size10 (seedGrid size10 3 3 glider) =
      workerOnMessage conwayRules noTrail size10 (seedGrid size10 3 3 glider) :=
  C9_step_deterministic conwayRules conwayRules noTrail noTrail size10 size10
    (seedGrid size10 3 3 glider) (seedGrid size10 3 3 glider) rfl rfl rfl rfl

/-! ## C10 — worker / main-thread equivalence -/

/-- C10: the web-worker step and the main-thread fallback
`computeNextGeneration` compute the same function: for every input grid,
rule configuration and trail configuration they produce identical output
grids (state, age and changed flag agree at every cell). -/
theorem C10_worker_main_equivalent (rules : Rules) (cfg : TrailCfg)
    (size : GridSize) (g : Grid) :
    computeNextGeneration rules cfg size g =
      (workerOnMessage rules cfg size g).1 := by
  simp only [computeNextGeneration, workerOnMessage, stepCellMain_eq_worker]

end GOL
